import Mathlib

/-!
Shallow embedding of `migrate.py`, a GitLab-to-GitHub repository migration
tool.  The orchestration logic is translated directly from the source;
every external effect (git commands, HTTP requests, filesystem removal,
the clock) is represented by an environment `JobEnv` fixing the outcome of
each call, and each embedded function additionally returns the ordered
list of externally visible attempts (`Ev`) it makes.  An exception
escaping a Python function is modelled by `Except.error ()`.
-/

set_option autoImplicit false

namespace Migrate

/-- Outcome of one external call: a normal result, an orderly in-band
failure (the Python function logs and returns `None` / `False` / a
non-success HTTP status), or an exception escaping the call. -/
inductive CallRes (α : Type) where
  | ok (v : α)
  | err
  | exn
deriving DecidableEq

/-- Which GitHub repo-creation endpoint a request is sent to:
`POST /orgs/{owner}/repos` or `POST /user/repos` (`create_github_repo`). -/
inductive Endpoint where
  | org (owner : String)
  | user
deriving DecidableEq

/-- The local clone directory of one job.  In the source it is the path
`./temp_clone_{new_repo_name}_{int(time.time())}`, fully determined by the
target repository name and the job's start timestamp; the handle is
modelled by that determining data. -/
structure CloneDir where
  repoName : String
  startTime : Nat
deriving DecidableEq

/-- The rendered path of a local clone directory, as built in
`migrate_repository`. -/
def CloneDir.path (d : CloneDir) : String :=
  "./temp_clone_" ++ d.repoName ++ "_" ++ toString d.startTime

/-- One externally visible attempt made by the tool, in the order the
source performs them. -/
inductive Ev where
  /-- The `Repo.clone_from` + `fetch --all` in `clone_from_gitlab`. -/
  | cloneAttempt (url : String) (dir : CloneDir)
  /-- The `POST` creating the target repository in `create_github_repo`. -/
  | createRepoAttempt (endp : Endpoint)
  /-- The `git push github --mirror` in `push_to_github`. -/
  | pushAttempt (dir : CloneDir) (url : String)
  /-- The `GET .../releases` in `get_gitlab_releases`. -/
  | listReleasesAttempt
  /-- The `GET /user` in `get_authenticated_username`. -/
  | whoamiAttempt
  /-- The `POST .../releases` in `create_github_release`; `i` is the
  position of the source release in the listed sequence. -/
  | createReleaseAttempt (owner : String) (i : Nat)
  /-- The `PATCH` in `update_github_repo_settings`. -/
  | settingsAttempt (owner : String)
  /-- The `PUT` in `add_default_access_permissions`. -/
  | teamAccessAttempt (org : String) (team : String)
  /-- The `shutil.rmtree` call in the `finally` block of
  `migrate_repository`; `ok` records whether removal succeeded. -/
  | removeAttempt (dir : CloneDir) (ok : Bool)
deriving DecidableEq

/-- A GitLab release record as read from the JSON payload: `gr.get(...)`
may yield `None` for any field. -/
structure Release where
  tag_name : Option String
  name : Option String
  description : Option String
deriving DecidableEq

/-- The external world one `migrate_repository` run interacts with: the
outcome of every external call it may make, plus the clock value read at
job start. -/
structure JobEnv where
  /-- Outcome of `Repo.clone_from` + `fetch`: `ok` = a repo object,
  `err` = `GitCommandError` caught (function returns `None`),
  `exn` = any other exception escaping. -/
  cloneRes : CallRes Unit
  /-- Outcome of the repo-creation `POST`: `ok url` = HTTP 201 with that
  `clone_url`, `err` = any other status, `exn` = request raised. -/
  createRes : CallRes String
  /-- Outcome of the mirror push: `ok` = all refs pushed, `err` =
  `GitCommandError` caught (returns `False`), `exn` = other exception. -/
  pushRes : CallRes Unit
  /-- HTTP status of the GitLab release-listing `GET`. -/
  relListStatus : Nat
  /-- JSON body of the release-listing response (used when status 200). -/
  relListBody : List Release
  /-- Outcome of the release-creation `POST` for the release at position
  `i`: `ok` = status 200/201, `err` = other status, `exn` = raised. -/
  relCreateRes : Nat → CallRes Unit
  /-- Outcome of the settings `PATCH`. -/
  settingsRes : CallRes Unit
  /-- Outcome of the team-permission `PUT`. -/
  teamRes : CallRes Unit
  /-- The `get_authenticated_username`: the login, or `none` on failure. -/
  authUser : Option String
  /-- Whether the first `rmtree` pass removes everything. -/
  rmFirstOk : Bool
  /-- Whether the retry inside `on_rm_error` succeeds. -/
  rmRetryOk : Bool
  /-- The `int(time.time())` at job start. -/
  now : Nat

/-- Python truthiness of an optional string: `None` and `""` are falsy. -/
def truthy : Option String → Bool
  | none => false
  | some s => !s.isEmpty

/-- Python `a or b` on optional strings. -/
def pyOr (a b : Option String) : Option String :=
  if truthy a then a else b

/-- Python string interpolation of a possibly-`None` value: `None`
renders as `"None"`. -/
def pyStr : Option String → String
  | none => "None"
  | some s => s

/-- Python `str.lower()` restricted to the ASCII range, which is all the
dispatch on `owner_type` compares against (`"org"`). -/
def pyLower (s : String) : String :=
  String.mk (s.data.map Char.toLower)

/-- The `clone_from_gitlab`: bare clone + `fetch --all`.  `GitCommandError`
is caught and yields `None`; other exceptions escape. -/
def clone_from_gitlab (gitlab_url : String) (clone_dir : CloneDir) (env : JobEnv) :
    Except Unit (Option Unit) × List Ev :=
  match env.cloneRes with
  | .ok _ => (.ok (some ()), [.cloneAttempt gitlab_url clone_dir])
  | .err => (.ok none, [.cloneAttempt gitlab_url clone_dir])
  | .exn => (.error (), [.cloneAttempt gitlab_url clone_dir])

/-- The `push_to_github`: registers the remote and mirror-pushes.
`GitCommandError` is caught and yields `False`; other exceptions escape. -/
def push_to_github (local_repo_path : CloneDir) (github_url : String) (env : JobEnv) :
    Except Unit Bool × List Ev :=
  match env.pushRes with
  | .ok _ => (.ok true, [.pushAttempt local_repo_path github_url])
  | .err => (.ok false, [.pushAttempt local_repo_path github_url])
  | .exn => (.error (), [.pushAttempt local_repo_path github_url])

/-- The `create_github_repo`: picks the org or user endpoint from
`owner_type.lower() == "org"`; with `owner_type` org-like but no owner
name it logs and returns `None` without issuing any request.  A 201
response yields the new repo's clone URL, any other response `None`. -/
def create_github_repo (repo_name : String) (owner_type : String)
    (owner_name : Option String) (env : JobEnv) :
    Except Unit (Option String) × List Ev :=
  let endp : Option Endpoint :=
    if pyLower owner_type == "org" then
      if truthy owner_name then some (.org (pyStr owner_name)) else none
    else
      some .user
  match endp with
  | none => (.ok none, [])
  | some e =>
    match env.createRes with
    | .ok url => (.ok (some url), [.createRepoAttempt e])
    | .err => (.ok none, [.createRepoAttempt e])
    | .exn => (.error (), [.createRepoAttempt e])

/-- The `get_authenticated_username`: `GET /user`, returning the login on 200
and `None` otherwise. -/
def get_authenticated_username (env : JobEnv) : Option String × List Ev :=
  (env.authUser, [.whoamiAttempt])

/-- The `get_gitlab_releases`: returns the JSON body on HTTP 200 and logs a
warning and returns `[]` on any other status; no path raises. -/
def get_gitlab_releases (env : JobEnv) : List Release × List Ev :=
  if env.relListStatus = 200 then (env.relListBody, [.listReleasesAttempt])
  else ([], [.listReleasesAttempt])

/-- The `create_github_release` for the source release at position `i`.
Owner resolution: org mode uses `owner_name` as-is; user mode uses
`owner_name` when truthy and otherwise falls back to
`get_authenticated_username`, returning `None` (no request) when that
fails.  A non-2xx creation response is logged and yields `None`. -/
def create_github_release (owner_type : String) (owner_name : Option String)
    (repo_name : String) (tag_name : Option String) (release_name : Option String)
    (body : String) (env : JobEnv) (i : Nat) :
    Except Unit (Option Unit) × List Ev :=
  let request : String → Except Unit (Option Unit) × List Ev := fun gh_owner =>
    match env.relCreateRes i with
    | .ok _ => (.ok (some ()), [.createReleaseAttempt gh_owner i])
    | .err => (.ok none, [.createReleaseAttempt gh_owner i])
    | .exn => (.error (), [.createReleaseAttempt gh_owner i])
  if pyLower owner_type == "org" then
    request (pyStr owner_name)
  else if truthy owner_name then
    request (pyStr owner_name)
  else
    let (u, tr) := get_authenticated_username env
    match u with
    | none => (.ok none, tr)
    | some gh_owner =>
      let (res, tr2) := request gh_owner
      (res, tr ++ tr2)

/-- The `for gr in gitlab_releases` loop of
`copy_gitlab_releases_to_github`: each release is attempted in turn; an
orderly creation failure (`None`) does not stop the loop, an escaping
exception does. -/
def copyLoop (owner_type : String) (owner_name : Option String)
    (repo_name : String) (env : JobEnv) :
    List Release → Nat → Except Unit Unit × List Ev
  | [], _ => (.ok (), [])
  | gr :: rest, i =>
    let tag_name := gr.tag_name
    let release_name := pyOr gr.name tag_name
    let description := pyStr (pyOr gr.description (some ""))
    let (res, tr) :=
      create_github_release owner_type owner_name repo_name tag_name release_name
        description env i
    match res with
    | .error _ => (.error (), tr)
    | .ok _ =>
      let (res2, tr2) := copyLoop owner_type owner_name repo_name env rest (i + 1)
      (res2, tr ++ tr2)

/-- The `copy_gitlab_releases_to_github`: lists the source releases and, when
any are found, re-creates each on the target. -/
def copy_gitlab_releases_to_github (owner_type : String) (owner_name : Option String)
    (repo_name : String) (env : JobEnv) : Except Unit Unit × List Ev :=
  let (gitlab_releases, tr0) := get_gitlab_releases env
  if gitlab_releases.isEmpty then (.ok (), tr0)
  else
    let (res, tr) := copyLoop owner_type owner_name repo_name env gitlab_releases 0
    (res, tr0 ++ tr)

/-- The `update_github_repo_settings`: resolves the owner exactly as release
creation does (returning without a request when resolution fails), then
issues the settings `PATCH`; a non-2xx response is only logged. -/
def update_github_repo_settings (owner_type : String) (owner_name : Option String)
    (repo_name : String) (env : JobEnv) : Except Unit Unit × List Ev :=
  let request : String → Except Unit Unit × List Ev := fun gh_owner =>
    match env.settingsRes with
    | .ok _ => (.ok (), [.settingsAttempt gh_owner])
    | .err => (.ok (), [.settingsAttempt gh_owner])
    | .exn => (.error (), [.settingsAttempt gh_owner])
  if pyLower owner_type == "org" then
    request (pyStr owner_name)
  else if truthy owner_name then
    request (pyStr owner_name)
  else
    let (u, tr) := get_authenticated_username env
    match u with
    | none => (.ok (), tr)
    | some gh_owner =>
      let (res, tr2) := request gh_owner
      (res, tr ++ tr2)

/-- The `add_default_access_permissions`: the team-permission `PUT`; a
non-2xx response is only logged. -/
def add_default_access_permissions (org : String) (repo_name : String)
    (team_slug : String) (env : JobEnv) : Except Unit Unit × List Ev :=
  match env.teamRes with
  | .ok _ => (.ok (), [.teamAccessAttempt org team_slug])
  | .err => (.ok (), [.teamAccessAttempt org team_slug])
  | .exn => (.error (), [.teamAccessAttempt org team_slug])

/-- The `on_rm_error`: clears the read-only bit (its own failure only
logged), sleeps, retries the failed removal, and re-raises when the retry
still fails. -/
def on_rm_error (retryOk : Bool) : Except Unit Unit :=
  if retryOk then .ok () else .error ()

/-- The `shutil.rmtree(local_clone_dir, onerror=on_rm_error)`: the first pass
either removes everything or hands the failure to `on_rm_error`. -/
def rmtree_with_retry (firstOk retryOk : Bool) : Except Unit Unit :=
  if firstOk then .ok () else on_rm_error retryOk

/-- The `finally` block of `migrate_repository`: one `rmtree` attempt,
whose failure (even after the retry re-raises) is caught and logged --
the two match arms differ in the source only by the log line written. -/
def cleanup_step (env : JobEnv) (dir : CloneDir) : List Ev :=
  match rmtree_with_retry env.rmFirstOk env.rmRetryOk with
  | .ok _ => [.removeAttempt dir true]
  | .error _ => [.removeAttempt dir false]

/-- One migration job: the parameters of `migrate_repository`. -/
structure Job where
  gitlab_url : String
  owner_type : String
  owner_name : Option String
  new_repo_name : String
  priv : Bool
  description : String
  team_slug : Option String
  apply_repo_settings : Bool
  copy_releases : Bool

/-- The job's local clone directory,
`./temp_clone_{new_repo_name}_{int(time.time())}`. -/
def local_clone_dir (job : Job) (env : JobEnv) : CloneDir :=
  ⟨job.new_repo_name, env.now⟩

/-- The `try` body of `migrate_repository`: clone, create target, push,
then the three soft steps. -/
def migrate_body (job : Job) (env : JobEnv) (dir : CloneDir) :
    Except Unit Bool × List Ev :=
  let (c, tr1) := clone_from_gitlab job.gitlab_url dir env
  match c with
  | .error _ => (.error (), tr1)
  | .ok none => (.ok false, tr1)
  | .ok (some _) =>
    let (cr, tr2) :=
      create_github_repo job.new_repo_name job.owner_type job.owner_name env
    match cr with
    | .error _ => (.error (), tr1 ++ tr2)
    | .ok none => (.ok false, tr1 ++ tr2)
    | .ok (some github_clone_url) =>
      let (p, tr3) := push_to_github dir github_clone_url env
      match p with
      | .error _ => (.error (), tr1 ++ tr2 ++ tr3)
      | .ok false => (.ok false, tr1 ++ tr2 ++ tr3)
      | .ok true =>
        let (r4, tr4) :=
          if job.copy_releases then
            copy_gitlab_releases_to_github job.owner_type job.owner_name
              job.new_repo_name env
          else (.ok (), [])
        match r4 with
        | .error _ => (.error (), tr1 ++ tr2 ++ tr3 ++ tr4)
        | .ok _ =>
          let (r5, tr5) :=
            if job.apply_repo_settings then
              update_github_repo_settings job.owner_type job.owner_name
                job.new_repo_name env
            else (.ok (), [])
          match r5 with
          | .error _ => (.error (), tr1 ++ tr2 ++ tr3 ++ tr4 ++ tr5)
          | .ok _ =>
            if truthy job.team_slug && (pyLower job.owner_type == "org") then
              let (r6, tr6) :=
                add_default_access_permissions (pyStr job.owner_name)
                  job.new_repo_name (pyStr job.team_slug) env
              match r6 with
              | .error _ => (.error (), tr1 ++ tr2 ++ tr3 ++ tr4 ++ tr5 ++ tr6)
              | .ok _ => (.ok true, tr1 ++ tr2 ++ tr3 ++ tr4 ++ tr5 ++ tr6)
            else (.ok true, tr1 ++ tr2 ++ tr3 ++ tr4 ++ tr5)

/-- The `migrate_repository`: the `try` body wrapped in the `finally` cleanup;
the cleanup's own failure is caught, so the body's result (normal return
or escaping exception) passes through unchanged. -/
def migrate_repository (job : Job) (env : JobEnv) : Except Unit Bool × List Ev :=
  let dir := local_clone_dir job env
  let (res, tr) := migrate_body job env dir
  (res, tr ++ cleanup_step env dir)

/-- The outcome string recorded per job by `bulk_migrate_repositories`. -/
def statusOf (r : Except Unit Bool) : String :=
  match r with
  | .ok true => "Success"
  | .ok false => "Failed"
  | .error _ => "Exception"

/-- Assignment `results[k] = v` on a Python dict modelled as an
insertion-ordered association list: an existing key keeps its position
and gets the new value, a fresh key is appended. -/
def dictInsert (k v : String) : List (String × String) → List (String × String)
  | [] => [(k, v)]
  | (k', v') :: rest =>
    if k' = k then (k, v) :: rest else (k', v') :: dictInsert k v rest

/-- The per-batch parameters of `bulk_migrate_repositories` that are
shared by every job. -/
structure BulkCfg where
  owner_type : String
  owner_name : Option String
  priv : Bool
  description : String
  team_slug : Option String
  apply_repo_settings : Bool
  copy_releases : Bool

/-- The job `bulk_migrate_repositories` builds for one mapping entry. -/
def mkJob (cfg : BulkCfg) (gitlab_url new_repo_name : String) : Job :=
  { gitlab_url := gitlab_url
    owner_type := cfg.owner_type
    owner_name := cfg.owner_name
    new_repo_name := new_repo_name
    priv := cfg.priv
    description := cfg.description
    team_slug := cfg.team_slug
    apply_repo_settings := cfg.apply_repo_settings
    copy_releases := cfg.copy_releases }

/-- The loop of `bulk_migrate_repositories`: each mapping entry is paired
with the external world its job runs against; an exception escaping
`migrate_repository` is caught and recorded as `"Exception"`. -/
def bulkGo (cfg : BulkCfg) :
    List ((String × String) × JobEnv) → List (String × String) →
      List (String × String)
  | [], results => results
  | ((gitlab_repo_url, new_repo_name), env) :: rest, results =>
    let r := (migrate_repository (mkJob cfg gitlab_repo_url new_repo_name) env).fst
    bulkGo cfg rest (dictInsert new_repo_name (statusOf r) results)

/-- The `bulk_migrate_repositories`: runs every job in input order and
returns the accumulated result map. -/
def bulk_migrate_repositories (cfg : BulkCfg)
    (repo_mapping : List ((String × String) × JobEnv)) :
    List (String × String) :=
  bulkGo cfg repo_mapping []

/-- Python `str.strip()` whitespace test (space, tab, newline, carriage
return, vertical tab, form feed). -/
def pyIsSpace (c : Char) : Bool :=
  c.toNat = 32 || c.toNat = 9 || c.toNat = 10 || c.toNat = 13 ||
    c.toNat = 11 || c.toNat = 12

/-- Python `str.strip()`. -/
def pyStrip (s : String) : String :=
  String.mk (((s.data.dropWhile pyIsSpace).reverse.dropWhile pyIsSpace).reverse)

/-- Python `str.split(",")` helper over the character list. -/
def splitCommaAux : List Char → List Char → List String
  | [], acc => [String.mk acc.reverse]
  | c :: rest, acc =>
    if c = ',' then String.mk acc.reverse :: splitCommaAux rest []
    else splitCommaAux rest (c :: acc)

/-- Python `str.split(",")`. -/
def pySplitComma (s : String) : List String :=
  splitCommaAux s.data []

/-- Python `line.startswith("#")`. -/
def startsWithHash (s : String) : Bool :=
  match s.data with
  | [] => false
  | c :: _ => c = '#'

/-- One iteration of the bulk-file reading loop in `__main__`: strip the
line, skip blanks and `#` comments, split on commas, keep exactly
two-field lines with both fields stripped. -/
def parse_bulk_line (raw : String) : Option (String × String) :=
  let line := pyStrip raw
  if line.isEmpty then none
  else if startsWithHash line then none
  else
    let parts := (pySplitComma line).map pyStrip
    match parts with
    | [a, b] => some (a, b)
    | _ => none

/-- The full bulk-file reading loop: entries accumulate in file order. -/
def parse_bulk_file : List String → List (String × String)
  | [] => []
  | l :: rest =>
    match parse_bulk_line l with
    | some entry => entry :: parse_bulk_file rest
    | none => parse_bulk_file rest

/-! ### Event classifiers and trace helpers -/

/-- Repo-creation requests. -/
def isCreateRepoEv : Ev → Bool
  | .createRepoAttempt _ => true
  | _ => false

/-- Mirror-push attempts. -/
def isPushEv : Ev → Bool
  | .pushAttempt _ _ => true
  | _ => false

/-- Events a `create_github_release` call can emit. -/
def isRelEv : Ev → Bool
  | .whoamiAttempt => true
  | .createReleaseAttempt _ _ => true
  | _ => false

/-- Events the release-copy step can emit. -/
def isCopyEv : Ev → Bool
  | .listReleasesAttempt => true
  | .whoamiAttempt => true
  | .createReleaseAttempt _ _ => true
  | _ => false

/-- Events the settings-update step can emit. -/
def isSettingsSegEv : Ev → Bool
  | .whoamiAttempt => true
  | .settingsAttempt _ => true
  | _ => false

/-- Team-permission requests. -/
def isTeamEv : Ev → Bool
  | .teamAccessAttempt _ _ => true
  | _ => false

/-- Events of the three soft post-push steps. -/
def isSoftEv : Ev → Bool
  | .listReleasesAttempt => true
  | .whoamiAttempt => true
  | .createReleaseAttempt _ _ => true
  | .settingsAttempt _ => true
  | .teamAccessAttempt _ _ => true
  | _ => false

/-- Local-directory removal attempts. -/
def isRemoveEv : Ev → Bool
  | .removeAttempt _ _ => true
  | _ => false

/-- The clone directory an event operates on, if any. -/
def evDir : Ev → Option CloneDir
  | .cloneAttempt _ d => some d
  | .pushAttempt d _ => some d
  | .removeAttempt d _ => some d
  | _ => none

/-- Number of events of a given kind in a trace. -/
def countEv (p : Ev → Bool) (tr : List Ev) : Nat :=
  (tr.filter p).length

/-- Positions of the source releases for which a creation request was
issued, in trace order. -/
def releaseAttemptIdxs (tr : List Ev) : List Nat :=
  tr.filterMap fun e =>
    match e with
    | .createReleaseAttempt _ i => some i
    | _ => none

/-- Whether a call on `Unit` results succeeded. -/
def isOkU : CallRes Unit → Bool
  | .ok _ => true
  | _ => false

/-- The clone URL `create_github_repo` hands back to `migrate_repository`
(`none` when creation failed or was not issued). -/
def createdUrl (job : Job) (env : JobEnv) : Option String :=
  match (create_github_repo job.new_repo_name job.owner_type job.owner_name env).fst with
  | .ok o => o
  | .error _ => none

/-- The three hard steps of a job all succeeded: the clone returned a
repository, target creation returned a clone URL, and the mirror push
returned `True`. -/
def hard_success (job : Job) (env : JobEnv) : Bool :=
  isOkU env.cloneRes && (createdUrl job env).isSome && isOkU env.pushRes

/-! ### Concrete sample data (used by the witness theorems) -/

/-- A sample individual-owner job. -/
def jobEx : Job :=
  { gitlab_url := "https://gitlab.com/group/proj.git"
    owner_type := "user"
    owner_name := none
    new_repo_name := "proj-copy"
    priv := true
    description := ""
    team_slug := none
    apply_repo_settings := true
    copy_releases := true }

/-- A sample org-owner job with a team slug. -/
def jobOrgEx : Job :=
  { gitlab_url := "https://gitlab.com/group/proj.git"
    owner_type := "ORG"
    owner_name := some "acme"
    new_repo_name := "proj-copy"
    priv := true
    description := ""
    team_slug := some "devs"
    apply_repo_settings := true
    copy_releases := true }

/-- A job whose owner kind is spelled `"organization"` — which the
dispatch does NOT treat as org mode — with a team slug supplied. -/
def jobFakeOrgEx : Job :=
  { gitlab_url := "https://gitlab.com/group/proj.git"
    owner_type := "organization"
    owner_name := some "acme"
    new_repo_name := "proj-copy"
    priv := true
    description := ""
    team_slug := some "devs"
    apply_repo_settings := true
    copy_releases := true }

/-- An environment in which every external call succeeds and the source
has two releases. -/
def envAllOk : JobEnv :=
  { cloneRes := .ok ()
    createRes := .ok "https://github.com/me/proj-copy.git"
    pushRes := .ok ()
    relListStatus := 200
    relListBody := [⟨some "v1.0", some "one", some "first"⟩,
      ⟨some "v1.1", some "two", some "second"⟩]
    relCreateRes := fun _ => .ok ()
    settingsRes := .ok ()
    teamRes := .ok ()
    authUser := some "me"
    rmFirstOk := true
    rmRetryOk := true
    now := 1700000000 }

/-- An environment whose clone step fails in an orderly way
(`GitCommandError`). -/
def envCloneFail : JobEnv :=
  { envAllOk with cloneRes := .err }

/-- An environment whose clone step raises an unexpected exception. -/
def envCloneExn : JobEnv :=
  { envAllOk with cloneRes := .exn }

/-- An environment with three source releases where creating the second
release fails (non-2xx response). -/
def envRel3 : JobEnv :=
  { envAllOk with
    relListBody := [⟨some "v1", some "a", some "x"⟩, ⟨some "v2", some "b", some "y"⟩,
      ⟨some "v3", some "c", some "z"⟩]
    relCreateRes := fun i => if i = 1 then .err else .ok () }

/-- An environment whose release-listing endpoint answers HTTP 500. -/
def envListFail : JobEnv :=
  { envAllOk with relListStatus := 500 }

/-- Sample batch configuration (individual-owner mode). -/
def cfgEx : BulkCfg :=
  { owner_type := "user"
    owner_name := none
    priv := true
    description := ""
    team_slug := none
    apply_repo_settings := true
    copy_releases := true }

/-! ### Per-segment trace lemmas -/

theorem clone_from_gitlab_snd (u : String) (d : CloneDir) (env : JobEnv) :
    (clone_from_gitlab u d env).snd = [.cloneAttempt u d] := by
  cases h : env.cloneRes <;> simp [clone_from_gitlab, h]

theorem push_to_github_snd (d : CloneDir) (u : String) (env : JobEnv) :
    (push_to_github d u env).snd = [.pushAttempt d u] := by
  cases h : env.pushRes <;> simp [push_to_github, h]

theorem team_snd (o rn t : String) (env : JobEnv) :
    (add_default_access_permissions o rn t env).snd = [.teamAccessAttempt o t] := by
  cases h : env.teamRes <;> simp [add_default_access_permissions, h]

theorem cleanup_step_eq (env : JobEnv) (d : CloneDir) :
    cleanup_step env d = [.removeAttempt d (env.rmFirstOk || env.rmRetryOk)] := by
  cases h1 : env.rmFirstOk <;> cases h2 : env.rmRetryOk <;>
    simp [cleanup_step, rmtree_with_retry, on_rm_error, h1, h2]

theorem create_github_repo_mem (n ot : String) (ow : Option String) (env : JobEnv) :
    ∀ e ∈ (create_github_repo n ot ow env).snd, isCreateRepoEv e = true := by
  unfold create_github_repo
  by_cases h : (pyLower ot == "org") = true
  · by_cases h2 : truthy ow = true
    · cases hc : env.createRes <;> simp [h, h2, hc, isCreateRepoEv]
    · simp [h, Bool.not_eq_true] at h2 ⊢
      simp [h2]
  · simp [Bool.not_eq_true] at h
    cases hc : env.createRes <;> simp [h, hc, isCreateRepoEv]

theorem create_github_release_mem (ot : String) (ow : Option String)
    (rn : String) (tn rln : Option String) (b : String) (env : JobEnv) (i : Nat) :
    ∀ e ∈ (create_github_release ot ow rn tn rln b env i).snd, isRelEv e = true := by
  unfold create_github_release get_authenticated_username
  by_cases h : (pyLower ot == "org") = true
  · cases hc : env.relCreateRes i <;> simp [h, hc, isRelEv]
  · simp [Bool.not_eq_true] at h
    by_cases h2 : truthy ow = true
    · cases hc : env.relCreateRes i <;> simp [h, h2, hc, isRelEv]
    · simp [Bool.not_eq_true] at h2
      cases ha : env.authUser with
      | none => simp [h, h2, ha, isRelEv]
      | some u => cases hc : env.relCreateRes i <;> simp [h, h2, ha, hc, isRelEv]

theorem copyLoop_mem (ot : String) (ow : Option String) (rn : String) (env : JobEnv) :
    ∀ (rs : List Release) (i : Nat),
      ∀ e ∈ (copyLoop ot ow rn env rs i).snd, isRelEv e = true := by
  intro rs
  induction rs with
  | nil => intro i e he; simp [copyLoop] at he
  | cons gr rest ih =>
    intro i e he
    rw [copyLoop] at he
    rcases hcr : create_github_release ot ow rn gr.tag_name (pyOr gr.name gr.tag_name)
        (pyStr (pyOr gr.description (some ""))) env i with ⟨res, tr⟩
    rw [hcr] at he
    have htr : ∀ x ∈ tr, isRelEv x = true := by
      intro x hx
      have := create_github_release_mem ot ow rn gr.tag_name (pyOr gr.name gr.tag_name)
        (pyStr (pyOr gr.description (some ""))) env i x
      rw [hcr] at this
      exact this hx
    cases res with
    | error v => simp at he; exact htr e he
    | ok v =>
      simp at he
      rcases he with he | he
      · exact htr e he
      · exact ih (i + 1) e he

theorem copy_gitlab_releases_mem (ot : String) (ow : Option String)
    (rn : String) (env : JobEnv) :
    ∀ e ∈ (copy_gitlab_releases_to_github ot ow rn env).snd, isCopyEv e = true := by
  intro e he
  unfold copy_gitlab_releases_to_github at he
  have hrel : ∀ x : Ev, isRelEv x = true → isCopyEv x = true := by
    intro x hx; cases x <;> simp [isRelEv, isCopyEv] at hx ⊢
  by_cases h : env.relListStatus = 200
  · by_cases hb : env.relListBody.isEmpty = true
    · simp [get_gitlab_releases, h, hb] at he
      simp [he, isCopyEv]
    · simp [get_gitlab_releases, h, hb] at he
      rcases he with he | he
      · simp [he, isCopyEv]
      · exact hrel e (copyLoop_mem ot ow rn env env.relListBody 0 e he)
  · simp [get_gitlab_releases, h] at he
    simp [he, isCopyEv]

theorem update_settings_mem (ot : String) (ow : Option String)
    (rn : String) (env : JobEnv) :
    ∀ e ∈ (update_github_repo_settings ot ow rn env).snd, isSettingsSegEv e = true := by
  unfold update_github_repo_settings get_authenticated_username
  by_cases h : (pyLower ot == "org") = true
  · cases hc : env.settingsRes <;> simp [h, hc, isSettingsSegEv]
  · simp [Bool.not_eq_true] at h
    by_cases h2 : truthy ow = true
    · cases hc : env.settingsRes <;> simp [h, h2, hc, isSettingsSegEv]
    · simp [Bool.not_eq_true] at h2
      cases ha : env.authUser with
      | none => simp [h, h2, ha, isSettingsSegEv]
      | some u => cases hc : env.settingsRes <;> simp [h, h2, ha, hc, isSettingsSegEv]

theorem migrate_fst (job : Job) (env : JobEnv) :
    (migrate_repository job env).fst
      = (migrate_body job env (local_clone_dir job env)).fst := by
  rcases hb : migrate_body job env (local_clone_dir job env) with ⟨res, tr⟩
  simp [migrate_repository, hb]

theorem migrate_snd (job : Job) (env : JobEnv) :
    (migrate_repository job env).snd
      = (migrate_body job env (local_clone_dir job env)).snd
          ++ cleanup_step env (local_clone_dir job env) := by
  rcases hb : migrate_body job env (local_clone_dir job env) with ⟨res, tr⟩
  simp [migrate_repository, hb]

theorem isCopyEv_soft (e : Ev) (h : isCopyEv e = true) :
    isSoftEv e = true ∧ isTeamEv e = false := by
  cases e <;> simp [isCopyEv, isSoftEv, isTeamEv] at h ⊢

theorem isSettingsSegEv_soft (e : Ev) (h : isSettingsSegEv e = true) :
    isSoftEv e = true ∧ isTeamEv e = false := by
  cases e <;> simp [isSettingsSegEv, isSoftEv, isTeamEv] at h ⊢

/-- Every event the `try` body of `migrate_repository` emits, classified,
with the environment conditions under which that event can occur at all:
a repo-creation request needs a successful clone, a push needs a created
target, a soft-step event needs a successful push, and a team-permission
event additionally needs org mode with a team slug. -/
theorem migrate_body_mem (job : Job) (env : JobEnv) (dir : CloneDir) :
    ∀ e ∈ (migrate_body job env dir).snd,
      e = .cloneAttempt job.gitlab_url dir ∨
      (isCreateRepoEv e = true ∧ env.cloneRes = .ok ()) ∨
      ((∃ url, e = .pushAttempt dir url) ∧ env.cloneRes = .ok () ∧
        (∃ u, (create_github_repo job.new_repo_name job.owner_type job.owner_name env).fst
            = .ok (some u))) ∨
      (isSoftEv e = true ∧ env.cloneRes = .ok () ∧ env.pushRes = .ok () ∧
        (∃ u, (create_github_repo job.new_repo_name job.owner_type job.owner_name env).fst
            = .ok (some u)) ∧
        (isTeamEv e = true →
          (truthy job.team_slug && (pyLower job.owner_type == "org")) = true)) := by
  intro e he
  rw [migrate_body] at he
  cases hc : env.cloneRes with
  | err => simp [clone_from_gitlab, hc] at he; exact Or.inl he
  | exn => simp [clone_from_gitlab, hc] at he; exact Or.inl he
  | ok v =>
    cases v
    simp only [clone_from_gitlab, hc] at he
    rcases hcr : create_github_repo job.new_repo_name job.owner_type job.owner_name env
      with ⟨crf, crt⟩
    rw [hcr] at he
    have hcrt : ∀ x ∈ crt, isCreateRepoEv x = true := by
      intro x hx
      have := create_github_repo_mem job.new_repo_name job.owner_type job.owner_name env x
      rw [hcr] at this
      exact this hx
    cases crf with
    | error u =>
      simp [List.mem_append] at he
      rcases he with he | he
      · exact Or.inl he
      · exact Or.inr (Or.inl ⟨hcrt e he, rfl⟩)
    | ok uo =>
      cases uo with
      | none =>
        simp [List.mem_append] at he
        rcases he with he | he
        · exact Or.inl he
        · exact Or.inr (Or.inl ⟨hcrt e he, rfl⟩)
      | some url =>
        cases hp : env.pushRes with
        | err =>
          simp [push_to_github, hp, List.mem_append] at he
          rcases he with he | he | he
          · exact Or.inl he
          · exact Or.inr (Or.inl ⟨hcrt e he, rfl⟩)
          · exact Or.inr (Or.inr (Or.inl ⟨⟨url, he⟩, rfl, url, rfl⟩))
        | exn =>
          simp [push_to_github, hp, List.mem_append] at he
          rcases he with he | he | he
          · exact Or.inl he
          · exact Or.inr (Or.inl ⟨hcrt e he, rfl⟩)
          · exact Or.inr (Or.inr (Or.inl ⟨⟨url, he⟩, rfl, url, rfl⟩))
        | ok w =>
          cases w
          simp only [push_to_github, hp] at he
          rcases h4 : (if job.copy_releases then
              copy_gitlab_releases_to_github job.owner_type job.owner_name
                job.new_repo_name env
            else (Except.ok (), [])) with ⟨r4f, r4t⟩
          rw [h4] at he
          have h4t : ∀ x ∈ r4t, isSoftEv x = true ∧ isTeamEv x = false := by
            intro x hx
            refine isCopyEv_soft x ?_
            by_cases hcpy : job.copy_releases = true
            · rw [if_pos hcpy] at h4
              have := copy_gitlab_releases_mem job.owner_type job.owner_name
                job.new_repo_name env x
              rw [h4] at this
              exact this hx
            · rw [if_neg hcpy] at h4
              cases h4
              simp at hx
          cases r4f with
          | error u =>
            simp [List.mem_append] at he
            rcases he with he | he | he | he
            · exact Or.inl he
            · exact Or.inr (Or.inl ⟨hcrt e he, rfl⟩)
            · exact Or.inr (Or.inr (Or.inl ⟨⟨url, he⟩, rfl, url, rfl⟩))
            · exact Or.inr (Or.inr (Or.inr ⟨(h4t e he).1, rfl, rfl, ⟨url, rfl⟩,
                fun ht => absurd ht (by simp [(h4t e he).2])⟩))
          | ok u4 =>
            rcases h5 : (if job.apply_repo_settings then
                update_github_repo_settings job.owner_type job.owner_name
                  job.new_repo_name env
              else (Except.ok (), [])) with ⟨r5f, r5t⟩
            rw [h5] at he
            have h5t : ∀ x ∈ r5t, isSoftEv x = true ∧ isTeamEv x = false := by
              intro x hx
              refine isSettingsSegEv_soft x ?_
              by_cases hset : job.apply_repo_settings = true
              · rw [if_pos hset] at h5
                have := update_settings_mem job.owner_type job.owner_name
                  job.new_repo_name env x
                rw [h5] at this
                exact this hx
              · rw [if_neg hset] at h5
                cases h5
                simp at hx
            cases r5f with
            | error u =>
              simp [List.mem_append] at he
              rcases he with he | he | he | he | he
              · exact Or.inl he
              · exact Or.inr (Or.inl ⟨hcrt e he, rfl⟩)
              · exact Or.inr (Or.inr (Or.inl ⟨⟨url, he⟩, rfl, url, rfl⟩))
              · exact Or.inr (Or.inr (Or.inr ⟨(h4t e he).1, rfl, rfl, ⟨url, rfl⟩,
                  fun ht => absurd ht (by simp [(h4t e he).2])⟩))
              · exact Or.inr (Or.inr (Or.inr ⟨(h5t e he).1, rfl, rfl, ⟨url, rfl⟩,
                  fun ht => absurd ht (by simp [(h5t e he).2])⟩))
            | ok u5 =>
              by_cases hg : (truthy job.team_slug && (pyLower job.owner_type == "org")) = true
              · rw [if_pos hg] at he
                rcases h6 : add_default_access_permissions (pyStr job.owner_name)
                    job.new_repo_name (pyStr job.team_slug) env with ⟨r6f, r6t⟩
                rw [h6] at he
                have h6t : r6t = [.teamAccessAttempt (pyStr job.owner_name)
                    (pyStr job.team_slug)] := by
                  have := team_snd (pyStr job.owner_name) job.new_repo_name
                    (pyStr job.team_slug) env
                  rw [h6] at this
                  exact this
                subst h6t
                cases r6f with
                | error u =>
                  simp [List.mem_append] at he
                  rcases he with he | he | he | he | he | he
                  · exact Or.inl he
                  · exact Or.inr (Or.inl ⟨hcrt e he, rfl⟩)
                  · exact Or.inr (Or.inr (Or.inl ⟨⟨url, he⟩, rfl, url, rfl⟩))
                  · exact Or.inr (Or.inr (Or.inr ⟨(h4t e he).1, rfl, rfl, ⟨url, rfl⟩,
                      fun ht => absurd ht (by simp [(h4t e he).2])⟩))
                  · exact Or.inr (Or.inr (Or.inr ⟨(h5t e he).1, rfl, rfl, ⟨url, rfl⟩,
                      fun ht => absurd ht (by simp [(h5t e he).2])⟩))
                  · exact Or.inr (Or.inr (Or.inr ⟨by rw [he]; rfl, rfl, rfl, ⟨url, rfl⟩,
                      fun _ => hg⟩))
                | ok u6 =>
                  simp [List.mem_append] at he
                  rcases he with he | he | he | he | he | he
                  · exact Or.inl he
                  · exact Or.inr (Or.inl ⟨hcrt e he, rfl⟩)
                  · exact Or.inr (Or.inr (Or.inl ⟨⟨url, he⟩, rfl, url, rfl⟩))
                  · exact Or.inr (Or.inr (Or.inr ⟨(h4t e he).1, rfl, rfl, ⟨url, rfl⟩,
                      fun ht => absurd ht (by simp [(h4t e he).2])⟩))
                  · exact Or.inr (Or.inr (Or.inr ⟨(h5t e he).1, rfl, rfl, ⟨url, rfl⟩,
                      fun ht => absurd ht (by simp [(h5t e he).2])⟩))
                  · exact Or.inr (Or.inr (Or.inr ⟨by rw [he]; rfl, rfl, rfl, ⟨url, rfl⟩,
                      fun _ => hg⟩))
              · rw [if_neg hg] at he
                simp [List.mem_append] at he
                rcases he with he | he | he | he | he
                · exact Or.inl he
                · exact Or.inr (Or.inl ⟨hcrt e he, rfl⟩)
                · exact Or.inr (Or.inr (Or.inl ⟨⟨url, he⟩, rfl, url, rfl⟩))
                · exact Or.inr (Or.inr (Or.inr ⟨(h4t e he).1, rfl, rfl, ⟨url, rfl⟩,
                    fun ht => absurd ht (by simp [(h4t e he).2])⟩))
                · exact Or.inr (Or.inr (Or.inr ⟨(h5t e he).1, rfl, rfl, ⟨url, rfl⟩,
                    fun ht => absurd ht (by simp [(h5t e he).2])⟩))

theorem soft_not_create (x : Ev) (h : isSoftEv x = true) : isCreateRepoEv x = false := by
  cases x <;> simp [isSoftEv, isCreateRepoEv] at h ⊢

theorem soft_not_remove (x : Ev) (h : isSoftEv x = true) : isRemoveEv x = false := by
  cases x <;> simp [isSoftEv, isRemoveEv] at h ⊢

theorem create_not_remove (x : Ev) (h : isCreateRepoEv x = true) : isRemoveEv x = false := by
  cases x <;> simp [isCreateRepoEv, isRemoveEv] at h ⊢

/-- No event of the `try` body is a cleanup-removal attempt: removal
happens only in the `finally` block. -/
theorem migrate_body_no_remove (job : Job) (env : JobEnv) (dir : CloneDir) :
    ∀ e ∈ (migrate_body job env dir).snd, isRemoveEv e = false := by
  intro e he
  rcases migrate_body_mem job env dir e he with h | h | h | h
  · rw [h]; rfl
  · exact create_not_remove e h.1
  · rcases h.1 with ⟨u, hu⟩; rw [hu]; rfl
  · exact soft_not_remove e h.1

theorem countEv_append (p : Ev → Bool) (l1 l2 : List Ev) :
    countEv p (l1 ++ l2) = countEv p l1 + countEv p l2 := by
  simp [countEv, List.filter_append]

theorem countEv_eq_zero (p : Ev → Bool) (l : List Ev) (h : ∀ e ∈ l, p e = false) :
    countEv p l = 0 := by
  simp only [countEv, List.length_eq_zero]
  rw [List.filter_eq_nil_iff]
  intro a ha
  simp [h a ha]

theorem countEv_le_length (p : Ev → Bool) (l : List Ev) : countEv p l ≤ l.length := by
  simpa [countEv] using List.length_filter_le p l

/-- The function `create_github_repo` issues at most one request. -/
theorem create_github_repo_snd_len (n ot : String) (ow : Option String) (env : JobEnv) :
    (create_github_repo n ot ow env).snd.length ≤ 1 := by
  unfold create_github_repo
  by_cases h : (pyLower ot == "org") = true
  · by_cases h2 : truthy ow = true
    · cases hc : env.createRes <;> simp [h, h2, hc]
    · simp [Bool.not_eq_true] at h2
      simp [h, h2]
  · simp [Bool.not_eq_true] at h
    cases hc : env.createRes <;> simp [h, hc]

/-! ### The body depends only on the non-cleanup fields of the
environment (used to show cleanup failures cannot change the outcome). -/

theorem clone_congr (u : String) (d : CloneDir) (env env2 : JobEnv)
    (h : env2.cloneRes = env.cloneRes) :
    clone_from_gitlab u d env2 = clone_from_gitlab u d env := by
  simp only [clone_from_gitlab, h]

theorem create_repo_congr (n ot : String) (ow : Option String) (env env2 : JobEnv)
    (h : env2.createRes = env.createRes) :
    create_github_repo n ot ow env2 = create_github_repo n ot ow env := by
  simp only [create_github_repo, h]

theorem push_congr (env env2 : JobEnv) (h : env2.pushRes = env.pushRes) :
    ∀ d u, push_to_github d u env2 = push_to_github d u env := by
  intro d u
  simp only [push_to_github, h]

theorem create_release_congr (ot : String) (ow : Option String) (rn : String)
    (env env2 : JobEnv) (h1 : env2.relCreateRes = env.relCreateRes)
    (h2 : env2.authUser = env.authUser) :
    ∀ tn rln b i, create_github_release ot ow rn tn rln b env2 i
      = create_github_release ot ow rn tn rln b env i := by
  intro tn rln b i
  simp only [create_github_release, get_authenticated_username, h1, h2]

theorem copyLoop_congr (ot : String) (ow : Option String) (rn : String)
    (env env2 : JobEnv) (h1 : env2.relCreateRes = env.relCreateRes)
    (h2 : env2.authUser = env.authUser) :
    ∀ rs i, copyLoop ot ow rn env2 rs i = copyLoop ot ow rn env rs i := by
  intro rs
  induction rs with
  | nil => intro i; rfl
  | cons gr rest ih =>
    intro i
    rw [copyLoop, copyLoop, create_release_congr ot ow rn env env2 h1 h2, ih (i + 1)]

theorem copy_congr (ot : String) (ow : Option String) (rn : String)
    (env env2 : JobEnv) (h1 : env2.relCreateRes = env.relCreateRes)
    (h2 : env2.authUser = env.authUser) (h3 : env2.relListStatus = env.relListStatus)
    (h4 : env2.relListBody = env.relListBody) :
    copy_gitlab_releases_to_github ot ow rn env2
      = copy_gitlab_releases_to_github ot ow rn env := by
  have hcl := copyLoop_congr ot ow rn env env2 h1 h2
  have hg : get_gitlab_releases env2 = get_gitlab_releases env := by
    simp only [get_gitlab_releases, h3, h4]
  simp only [copy_gitlab_releases_to_github, hg, hcl]

theorem settings_congr (ot : String) (ow : Option String) (rn : String)
    (env env2 : JobEnv) (h1 : env2.settingsRes = env.settingsRes)
    (h2 : env2.authUser = env.authUser) :
    update_github_repo_settings ot ow rn env2 = update_github_repo_settings ot ow rn env := by
  simp only [update_github_repo_settings, get_authenticated_username, h1, h2]

theorem team_congr (env env2 : JobEnv) (h : env2.teamRes = env.teamRes) :
    ∀ o rn t, add_default_access_permissions o rn t env2
      = add_default_access_permissions o rn t env := by
  intro o rn t
  simp only [add_default_access_permissions, h]

/-- The `try` body reads none of the cleanup-related environment fields. -/
theorem migrate_body_rm_congr (job : Job) (env : JobEnv) (dir : CloneDir) (b1 b2 : Bool) :
    migrate_body job { env with rmFirstOk := b1, rmRetryOk := b2 } dir
      = migrate_body job env dir := by
  have hclone := clone_congr job.gitlab_url dir env
    { env with rmFirstOk := b1, rmRetryOk := b2 } rfl
  have hcreate := create_repo_congr job.new_repo_name job.owner_type job.owner_name env
    { env with rmFirstOk := b1, rmRetryOk := b2 } rfl
  have hpush := push_congr env { env with rmFirstOk := b1, rmRetryOk := b2 } rfl
  have hcopy := copy_congr job.owner_type job.owner_name job.new_repo_name env
    { env with rmFirstOk := b1, rmRetryOk := b2 } rfl rfl rfl rfl
  have hset := settings_congr job.owner_type job.owner_name job.new_repo_name env
    { env with rmFirstOk := b1, rmRetryOk := b2 } rfl rfl
  have hteam := team_congr env { env with rmFirstOk := b1, rmRetryOk := b2 } rfl
  simp only [migrate_body, hclone, hcreate, hpush, hcopy, hset, hteam]

theorem countEv_cons (p : Ev → Bool) (e : Ev) (l : List Ev) :
    countEv p (e :: l) = (if p e then 1 else 0) + countEv p l := by
  by_cases h : p e = true <;> simp [countEv, List.filter_cons, h] <;> omega

theorem soft_evDir (x : Ev) (h : isSoftEv x = true) : evDir x = none := by
  cases x <;> simp [isSoftEv, evDir] at h ⊢

theorem create_evDir (x : Ev) (h : isCreateRepoEv x = true) : evDir x = none := by
  cases x <;> simp [isCreateRepoEv, evDir] at h ⊢

/-- The body's trace is either the lone failed clone attempt or the clone
attempt followed by whatever `create_github_repo` emitted and a tail
containing no further repo-creation requests. -/
theorem migrate_body_create_shape (job : Job) (env : JobEnv) (dir : CloneDir) :
    (migrate_body job env dir).snd = [.cloneAttempt job.gitlab_url dir] ∨
    ∃ post, (migrate_body job env dir).snd
        = .cloneAttempt job.gitlab_url dir ::
            ((create_github_repo job.new_repo_name job.owner_type job.owner_name env).snd
              ++ post)
      ∧ ∀ e ∈ post, isCreateRepoEv e = false := by
  rw [migrate_body]
  cases hc : env.cloneRes with
  | err => simp [clone_from_gitlab, hc]
  | exn => simp [clone_from_gitlab, hc]
  | ok v =>
    cases v
    simp only [clone_from_gitlab, hc]
    rcases hcr : create_github_repo job.new_repo_name job.owner_type job.owner_name env
      with ⟨crf, crt⟩
    cases crf with
    | error u => exact Or.inr ⟨[], by simp, by simp⟩
    | ok uo =>
      cases uo with
      | none => exact Or.inr ⟨[], by simp, by simp⟩
      | some url =>
        cases hp : env.pushRes with
        | err =>
          refine Or.inr ⟨[.pushAttempt dir url], ?_, ?_⟩
          · simp [push_to_github, hp]
          · intro x hx; simp at hx; rw [hx]; rfl
        | exn =>
          refine Or.inr ⟨[.pushAttempt dir url], ?_, ?_⟩
          · simp [push_to_github, hp]
          · intro x hx; simp at hx; rw [hx]; rfl
        | ok w =>
          cases w
          simp only [push_to_github, hp]
          rcases h4 : (if job.copy_releases then
              copy_gitlab_releases_to_github job.owner_type job.owner_name
                job.new_repo_name env
            else (Except.ok (), [])) with ⟨r4f, r4t⟩
          have h4t : ∀ x ∈ r4t, isCreateRepoEv x = false := by
            intro x hx
            by_cases hcpy : job.copy_releases = true
            · rw [if_pos hcpy] at h4
              have := copy_gitlab_releases_mem job.owner_type job.owner_name
                job.new_repo_name env x
              rw [h4] at this
              exact soft_not_create x (isCopyEv_soft x (this hx)).1
            · rw [if_neg hcpy] at h4
              cases h4
              simp at hx
          cases r4f with
          | error u =>
            refine Or.inr ⟨.pushAttempt dir url :: r4t, by simp, ?_⟩
            intro x hx
            simp at hx
            rcases hx with hx | hx
            · rw [hx]; rfl
            · exact h4t x hx
          | ok u4 =>
            rcases h5 : (if job.apply_repo_settings then
                update_github_repo_settings job.owner_type job.owner_name
                  job.new_repo_name env
              else (Except.ok (), [])) with ⟨r5f, r5t⟩
            have h5t : ∀ x ∈ r5t, isCreateRepoEv x = false := by
              intro x hx
              by_cases hset : job.apply_repo_settings = true
              · rw [if_pos hset] at h5
                have := update_settings_mem job.owner_type job.owner_name
                  job.new_repo_name env x
                rw [h5] at this
                exact soft_not_create x (isSettingsSegEv_soft x (this hx)).1
              · rw [if_neg hset] at h5
                cases h5
                simp at hx
            cases r5f with
            | error u =>
              refine Or.inr ⟨.pushAttempt dir url :: (r4t ++ r5t), by simp, ?_⟩
              intro x hx
              simp at hx
              rcases hx with hx | hx | hx
              · rw [hx]; rfl
              · exact h4t x hx
              · exact h5t x hx
            | ok u5 =>
              by_cases hg : (truthy job.team_slug && (pyLower job.owner_type == "org")) = true
              · rw [if_pos hg]
                rcases h6 : add_default_access_permissions (pyStr job.owner_name)
                    job.new_repo_name (pyStr job.team_slug) env with ⟨r6f, r6t⟩
                have h6t : r6t = [.teamAccessAttempt (pyStr job.owner_name)
                    (pyStr job.team_slug)] := by
                  have := team_snd (pyStr job.owner_name) job.new_repo_name
                    (pyStr job.team_slug) env
                  rw [h6] at this
                  exact this
                subst h6t
                cases r6f with
                | error u =>
                  refine Or.inr ⟨.pushAttempt dir url :: (r4t ++ r5t
                      ++ [.teamAccessAttempt (pyStr job.owner_name) (pyStr job.team_slug)]),
                    by simp, ?_⟩
                  intro x hx
                  simp at hx
                  rcases hx with hx | hx | hx | hx
                  · rw [hx]; rfl
                  · exact h4t x hx
                  · exact h5t x hx
                  · rw [hx]; rfl
                | ok u6 =>
                  refine Or.inr ⟨.pushAttempt dir url :: (r4t ++ r5t
                      ++ [.teamAccessAttempt (pyStr job.owner_name) (pyStr job.team_slug)]),
                    by simp, ?_⟩
                  intro x hx
                  simp at hx
                  rcases hx with hx | hx | hx | hx
                  · rw [hx]; rfl
                  · exact h4t x hx
                  · exact h5t x hx
                  · rw [hx]; rfl
              · rw [if_neg hg]
                refine Or.inr ⟨.pushAttempt dir url :: (r4t ++ r5t), by simp, ?_⟩
                intro x hx
                simp at hx
                rcases hx with hx | hx | hx
                · rw [hx]; rfl
                · exact h4t x hx
                · exact h5t x hx

/-! ### Claim theorems -/

/-- C1: in `migrate_repository` the steps run in strict order and a
hard-step failure skips everything after it: a target-repository creation
request occurs only when the clone step returned a repository handle, a
mirror-push attempt occurs only when (additionally) repository creation
returned a clone URL, and any soft-step attempt (release listing/creation,
identity lookup, settings update, team access) occurs only when
(additionally) the push succeeded.  In particular a failed clone creates
no destination-side resource and a failed target creation is never
followed by a push. -/
theorem migrate_hard_step_order (job : Job) (env : JobEnv) :
    ((∃ e ∈ (migrate_repository job env).snd, isCreateRepoEv e = true) →
        env.cloneRes = .ok ()) ∧
    ((∃ e ∈ (migrate_repository job env).snd, isPushEv e = true) →
        env.cloneRes = .ok () ∧
        ∃ u, (create_github_repo job.new_repo_name job.owner_type job.owner_name env).fst
            = .ok (some u)) ∧
    ((∃ e ∈ (migrate_repository job env).snd, isSoftEv e = true) →
        env.cloneRes = .ok () ∧
        (∃ u, (create_github_repo job.new_repo_name job.owner_type job.owner_name env).fst
            = .ok (some u)) ∧
        env.pushRes = .ok ()) := by
  refine ⟨?_, ?_, ?_⟩
  · rintro ⟨e, he, hk⟩
    rw [migrate_snd] at he
    rcases List.mem_append.mp he with hb | hclp
    · rcases migrate_body_mem job env _ e hb with h | h | h | h
      · rw [h] at hk; simp [isCreateRepoEv] at hk
      · exact h.2
      · rcases h.1 with ⟨u, hu⟩; rw [hu] at hk; simp [isCreateRepoEv] at hk
      · rw [soft_not_create e h.1] at hk; cases hk
    · rw [cleanup_step_eq] at hclp
      simp at hclp
      rw [hclp] at hk
      simp [isCreateRepoEv] at hk
  · rintro ⟨e, he, hk⟩
    rw [migrate_snd] at he
    rcases List.mem_append.mp he with hb | hclp
    · rcases migrate_body_mem job env _ e hb with h | h | h | h
      · rw [h] at hk; simp [isPushEv] at hk
      · cases e <;> simp [isCreateRepoEv] at * <;> simp [isPushEv] at hk
      · exact ⟨h.2.1, h.2.2⟩
      · cases e <;> simp [isSoftEv] at * <;> simp [isPushEv] at hk
    · rw [cleanup_step_eq] at hclp
      simp at hclp
      rw [hclp] at hk
      simp [isPushEv] at hk
  · rintro ⟨e, he, hk⟩
    rw [migrate_snd] at he
    rcases List.mem_append.mp he with hb | hclp
    · rcases migrate_body_mem job env _ e hb with h | h | h | h
      · rw [h] at hk; simp [isSoftEv] at hk
      · rw [soft_not_create e hk] at h; rcases h with ⟨h1, _⟩; cases h1
      · rcases h.1 with ⟨u, hu⟩; rw [hu] at hk; simp [isSoftEv] at hk
      · exact ⟨h.2.1, h.2.2.2.1, h.2.2.1⟩
    · rw [cleanup_step_eq] at hclp
      simp at hclp
      rw [hclp] at hk
      simp [isSoftEv] at hk

/-- Witness for C1 at a concrete successful job: the release-listing
attempt in the trace certifies that clone, creation and push all
succeeded. -/
theorem migrate_hard_step_order_witness :
    envAllOk.cloneRes = .ok () ∧
    (∃ u, (create_github_repo jobEx.new_repo_name jobEx.owner_type jobEx.owner_name
        envAllOk).fst = .ok (some u)) ∧
    envAllOk.pushRes = .ok () :=
  (migrate_hard_step_order jobEx envAllOk).2.2 ⟨.listReleasesAttempt, by decide, rfl⟩

/-- C2: every run of `migrate_repository` — normal success, hard-step
failure, or termination by an escaping exception — attempts removal of the
local clone directory exactly once, and the outcome of the removal
attempt (including the case where `on_rm_error`'s retry fails and
re-raises) never changes the job's result. -/
theorem migrate_cleanup_exactly_once (job : Job) (env : JobEnv) (b1 b2 : Bool) :
    countEv isRemoveEv (migrate_repository job env).snd = 1 ∧
    (migrate_repository job { env with rmFirstOk := b1, rmRetryOk := b2 }).fst
      = (migrate_repository job env).fst := by
  constructor
  · rw [migrate_snd, countEv_append,
      countEv_eq_zero _ _ (migrate_body_no_remove job env _), cleanup_step_eq]
    simp [countEv, isRemoveEv]
  · rw [migrate_fst, migrate_fst]
    have hdir : local_clone_dir job { env with rmFirstOk := b1, rmRetryOk := b2 }
        = local_clone_dir job env := rfl
    rw [hdir, migrate_body_rm_congr]

/-- C9: one `migrate_repository` call issues at most one
repository-creation request, every directory its trace touches is the
job's own clone directory, and that directory is determined by the job's
target name and start timestamp (so jobs differing in either use distinct
handles). -/
theorem migrate_create_once_unique_dir (job : Job) (env : JobEnv) :
    countEv isCreateRepoEv (migrate_repository job env).snd ≤ 1 ∧
    (∀ e ∈ (migrate_repository job env).snd, ∀ d, evDir e = some d →
        d = local_clone_dir job env) ∧
    (∀ (j1 j2 : Job) (e1 e2 : JobEnv),
        local_clone_dir j1 e1 = local_clone_dir j2 e2 →
        j1.new_repo_name = j2.new_repo_name ∧ e1.now = e2.now) := by
  refine ⟨?_, ?_, ?_⟩
  · rw [migrate_snd, countEv_append]
    have hclean : countEv isCreateRepoEv (cleanup_step env (local_clone_dir job env)) = 0 := by
      rw [cleanup_step_eq]; rfl
    rcases migrate_body_create_shape job env (local_clone_dir job env)
      with h | ⟨post, hpost, hnc⟩
    · rw [h, hclean]
      simp [countEv, isCreateRepoEv]
    · rw [hpost, hclean, countEv_cons, countEv_append,
        countEv_eq_zero _ _ hnc]
      have h2 := le_trans (countEv_le_length isCreateRepoEv
          (create_github_repo job.new_repo_name job.owner_type job.owner_name env).snd)
        (create_github_repo_snd_len job.new_repo_name job.owner_type job.owner_name env)
      simp [isCreateRepoEv]
      omega
  · intro e he d hd
    rw [migrate_snd] at he
    rcases List.mem_append.mp he with hb | hclp
    · rcases migrate_body_mem job env _ e hb with h | h | h | h
      · rw [h] at hd; simp [evDir] at hd; exact hd.symm
      · rw [create_evDir e h.1] at hd; cases hd
      · rcases h.1 with ⟨u, hu⟩; rw [hu] at hd; simp [evDir] at hd; exact hd.symm
      · rw [soft_evDir e h.1] at hd; cases hd
    · rw [cleanup_step_eq] at hclp
      simp at hclp
      rw [hclp] at hd
      simp [evDir] at hd
      exact hd.symm
  · intro j1 j2 e1 e2 h
    simpa [local_clone_dir, CloneDir.mk.injEq] using h

/-- Witness for C9 at a concrete run: the removal event in the trace
names exactly the job's own clone directory. -/
theorem migrate_create_once_unique_dir_witness :
    (⟨"proj-copy", 1700000000⟩ : CloneDir) = local_clone_dir jobEx envAllOk :=
  (migrate_create_once_unique_dir jobEx envAllOk).2.1
    (.removeAttempt ⟨"proj-copy", 1700000000⟩ true) (by decide)
    ⟨"proj-copy", 1700000000⟩ (by decide)

/-! ### Result lemmas for the soft steps -/

theorem create_release_fst_ok (ot : String) (ow : Option String) (rn : String)
    (tn rln : Option String) (b : String) (env : JobEnv) (i : Nat)
    (h : env.relCreateRes i ≠ .exn) :
    ∃ v, (create_github_release ot ow rn tn rln b env i).fst = .ok v := by
  unfold create_github_release get_authenticated_username
  by_cases h1 : (pyLower ot == "org") = true
  · rcases hc : env.relCreateRes i with v | _ | _
    · exact ⟨some (), by simp [h1, hc]⟩
    · exact ⟨none, by simp [h1, hc]⟩
    · exact absurd hc h
  · simp only [Bool.not_eq_true] at h1
    by_cases h2 : truthy ow = true
    · rcases hc : env.relCreateRes i with v | _ | _
      · exact ⟨some (), by simp [h1, h2, hc]⟩
      · exact ⟨none, by simp [h1, h2, hc]⟩
      · exact absurd hc h
    · simp only [Bool.not_eq_true] at h2
      cases ha : env.authUser with
      | none => exact ⟨none, by simp [h1, h2, ha]⟩
      | some u =>
        rcases hc : env.relCreateRes i with v | _ | _
        · exact ⟨some (), by simp [h1, h2, ha, hc]⟩
        · exact ⟨none, by simp [h1, h2, ha, hc]⟩
        · exact absurd hc h

theorem copyLoop_fst_ok (ot : String) (ow : Option String) (rn : String)
    (env : JobEnv) (h : ∀ i, env.relCreateRes i ≠ .exn) :
    ∀ (rs : List Release) (i : Nat), (copyLoop ot ow rn env rs i).fst = .ok () := by
  intro rs
  induction rs with
  | nil => intro i; rfl
  | cons gr rest ih =>
    intro i
    rw [copyLoop]
    rcases create_release_fst_ok ot ow rn gr.tag_name (pyOr gr.name gr.tag_name)
        (pyStr (pyOr gr.description (some ""))) env i (h i) with ⟨v, hv⟩
    rcases hcr : create_github_release ot ow rn gr.tag_name (pyOr gr.name gr.tag_name)
        (pyStr (pyOr gr.description (some ""))) env i with ⟨rf, rt⟩
    have hrf : rf = .ok v := by rw [hcr] at hv; exact hv
    subst hrf
    rcases hl : copyLoop ot ow rn env rest (i + 1) with ⟨res2, tr2⟩
    have hres2 : res2 = .ok () := by have := ih (i + 1); rw [hl] at this; exact this
    subst hres2
    simp [hcr, hl]

theorem copy_fst_ok (ot : String) (ow : Option String) (rn : String)
    (env : JobEnv) (h : ∀ i, env.relCreateRes i ≠ .exn) :
    (copy_gitlab_releases_to_github ot ow rn env).fst = .ok () := by
  rw [copy_gitlab_releases_to_github]
  rcases hg : get_gitlab_releases env with ⟨rels, tr0⟩
  by_cases he : rels.isEmpty = true
  · simp [he]
  · rcases hl : copyLoop ot ow rn env rels 0 with ⟨res, tr⟩
    have hres : res = .ok () := by
      have := copyLoop_fst_ok ot ow rn env h rels 0
      rw [hl] at this
      exact this
    subst hres
    simp [he, hl]

theorem settings_fst_ok (ot : String) (ow : Option String) (rn : String)
    (env : JobEnv) (h : env.settingsRes ≠ .exn) :
    (update_github_repo_settings ot ow rn env).fst = .ok () := by
  unfold update_github_repo_settings get_authenticated_username
  by_cases h1 : (pyLower ot == "org") = true
  · rcases hc : env.settingsRes with v | _ | _
    · simp [h1, hc]
    · simp [h1, hc]
    · exact absurd hc h
  · simp only [Bool.not_eq_true] at h1
    by_cases h2 : truthy ow = true
    · rcases hc : env.settingsRes with v | _ | _
      · simp [h1, h2, hc]
      · simp [h1, h2, hc]
      · exact absurd hc h
    · simp only [Bool.not_eq_true] at h2
      cases ha : env.authUser with
      | none => simp [h1, h2, ha]
      | some u =>
        rcases hc : env.settingsRes with v | _ | _
        · simp [h1, h2, ha, hc]
        · simp [h1, h2, ha, hc]
        · exact absurd hc h

theorem team_fst_ok (o rn t : String) (env : JobEnv) (h : env.teamRes ≠ .exn) :
    (add_default_access_permissions o rn t env).fst = .ok () := by
  unfold add_default_access_permissions
  rcases hc : env.teamRes with v | _ | _
  · simp [hc]
  · simp [hc]
  · exact absurd hc h

theorem create_repo_fst_ok (n ot : String) (ow : Option String) (env : JobEnv)
    (h : env.createRes ≠ .exn) :
    ∃ o, (create_github_repo n ot ow env).fst = .ok o := by
  unfold create_github_repo
  by_cases h1 : (pyLower ot == "org") = true
  · by_cases h2 : truthy ow = true
    · rcases hc : env.createRes with u | _ | _
      · exact ⟨some u, by simp [h1, h2, hc]⟩
      · exact ⟨none, by simp [h1, h2, hc]⟩
      · exact absurd hc h
    · simp only [Bool.not_eq_true] at h2
      exact ⟨none, by simp [h1, h2]⟩
  · simp only [Bool.not_eq_true] at h1
    rcases hc : env.createRes with u | _ | _
    · exact ⟨some u, by simp [h1, hc]⟩
    · exact ⟨none, by simp [h1, hc]⟩
    · exact absurd hc h

/-- C5: whenever no step terminates by an escaping exception,
`migrate_repository` returns a boolean, and it is `True` exactly when the
three hard steps (clone, target creation, mirror push) all succeeded —
orderly failures of the soft steps (release copy, settings update,
team-access grant) never change the result. -/
theorem migrate_returns_hard_success (job : Job) (env : JobEnv)
    (h1 : env.cloneRes ≠ .exn) (h2 : env.createRes ≠ .exn) (h3 : env.pushRes ≠ .exn)
    (h4 : ∀ i, env.relCreateRes i ≠ .exn) (h5 : env.settingsRes ≠ .exn)
    (h6 : env.teamRes ≠ .exn) :
    (migrate_repository job env).fst = .ok (hard_success job env) := by
  rw [migrate_fst, migrate_body]
  cases hc : env.cloneRes with
  | exn => exact absurd hc h1
  | err => simp [clone_from_gitlab, hc, hard_success, isOkU]
  | ok v =>
    cases v
    simp only [clone_from_gitlab, hc]
    rcases create_repo_fst_ok job.new_repo_name job.owner_type job.owner_name env h2
      with ⟨o, ho⟩
    rcases hcr : create_github_repo job.new_repo_name job.owner_type job.owner_name env
      with ⟨crf, crt⟩
    have hcrf : crf = .ok o := by rw [hcr] at ho; exact ho
    subst hcrf
    cases o with
    | none =>
      have hcu : createdUrl job env = none := by rw [createdUrl, hcr]
      simp [hard_success, isOkU, hc, hcu]
    | some url =>
      have hcu : createdUrl job env = some url := by rw [createdUrl, hcr]
      cases hp : env.pushRes with
      | exn => exact absurd hp h3
      | err => simp [push_to_github, hp, hard_success, isOkU, hc, hcu]
      | ok w =>
        cases w
        simp only [push_to_github, hp]
        rcases hc4 : (if job.copy_releases then
            copy_gitlab_releases_to_github job.owner_type job.owner_name
              job.new_repo_name env
          else (Except.ok (), [])) with ⟨r4f, r4t⟩
        have hr4 : r4f = .ok () := by
          by_cases hb : job.copy_releases = true
          · rw [if_pos hb] at hc4
            have := copy_fst_ok job.owner_type job.owner_name job.new_repo_name env h4
            rw [hc4] at this
            exact this
          · rw [if_neg hb] at hc4
            cases hc4
            rfl
        subst hr4
        rcases hc5 : (if job.apply_repo_settings then
            update_github_repo_settings job.owner_type job.owner_name
              job.new_repo_name env
          else (Except.ok (), [])) with ⟨r5f, r5t⟩
        have hr5 : r5f = .ok () := by
          by_cases hb : job.apply_repo_settings = true
          · rw [if_pos hb] at hc5
            have := settings_fst_ok job.owner_type job.owner_name job.new_repo_name env h5
            rw [hc5] at this
            exact this
          · rw [if_neg hb] at hc5
            cases hc5
            rfl
        subst hr5
        by_cases hg : (truthy job.team_slug && (pyLower job.owner_type == "org")) = true
        · rw [if_pos hg]
          rcases hc6 : add_default_access_permissions (pyStr job.owner_name)
              job.new_repo_name (pyStr job.team_slug) env with ⟨r6f, r6t⟩
          have hr6 : r6f = .ok () := by
            have := team_fst_ok (pyStr job.owner_name) job.new_repo_name
              (pyStr job.team_slug) env h6
            rw [hc6] at this
            exact this
          subst hr6
          simp [hard_success, isOkU, hc, hcu, hp]
        · rw [if_neg hg]
          simp [hard_success, isOkU, hc, hcu, hp]

/-- Witness for C5 at a concrete all-successful job. -/
theorem migrate_returns_hard_success_witness :
    (migrate_repository jobEx envAllOk).fst = .ok (hard_success jobEx envAllOk) :=
  migrate_returns_hard_success jobEx envAllOk (by decide) (by decide) (by decide)
    (fun i => by simp [envAllOk]) (by decide) (by decide)

theorem releaseAttemptIdxs_append (l1 l2 : List Ev) :
    releaseAttemptIdxs (l1 ++ l2) = releaseAttemptIdxs l1 ++ releaseAttemptIdxs l2 := by
  simp [releaseAttemptIdxs, List.filterMap_append]

/-- When an owner is resolvable and the creation request does not raise,
`create_github_release` issues exactly one creation request, for its own
release position. -/
theorem create_release_idxs (ot : String) (ow : Option String) (rn : String)
    (tn rln : Option String) (b : String) (env : JobEnv) (i : Nat)
    (hres : (pyLower ot == "org") = true ∨ truthy ow = true ∨ env.authUser.isSome = true)
    (hnoexn : env.relCreateRes i ≠ .exn) :
    releaseAttemptIdxs (create_github_release ot ow rn tn rln b env i).snd = [i] := by
  unfold create_github_release get_authenticated_username
  by_cases h1 : (pyLower ot == "org") = true
  · rcases hc : env.relCreateRes i with v | _ | _
    · simp [h1, hc, releaseAttemptIdxs]
    · simp [h1, hc, releaseAttemptIdxs]
    · exact absurd hc hnoexn
  · simp only [Bool.not_eq_true] at h1
    by_cases h2 : truthy ow = true
    · rcases hc : env.relCreateRes i with v | _ | _
      · simp [h1, h2, hc, releaseAttemptIdxs]
      · simp [h1, h2, hc, releaseAttemptIdxs]
      · exact absurd hc hnoexn
    · have h2f : truthy ow = false := by
        cases hx : truthy ow
        · rfl
        · exact absurd hx h2
      cases ha : env.authUser with
      | none =>
        rcases hres with hr | hr | hr
        · rw [h1] at hr; cases hr
        · rw [h2f] at hr; cases hr
        · rw [ha] at hr; cases hr
      | some u =>
        rcases hc : env.relCreateRes i with v | _ | _
        · simp [h1, h2f, ha, hc, releaseAttemptIdxs]
        · simp [h1, h2f, ha, hc, releaseAttemptIdxs]
        · exact absurd hc hnoexn

/-- The release-copy loop issues one creation request per source release,
in source order, regardless of individual orderly failures. -/
theorem copyLoop_idxs (ot : String) (ow : Option String) (rn : String) (env : JobEnv)
    (hres : (pyLower ot == "org") = true ∨ truthy ow = true ∨ env.authUser.isSome = true)
    (hnoexn : ∀ i, env.relCreateRes i ≠ .exn) :
    ∀ (rs : List Release) (i : Nat),
      releaseAttemptIdxs (copyLoop ot ow rn env rs i).snd = List.range' i rs.length := by
  intro rs
  induction rs with
  | nil => intro i; simp [copyLoop, releaseAttemptIdxs]
  | cons gr rest ih =>
    intro i
    rw [copyLoop]
    rcases create_release_fst_ok ot ow rn gr.tag_name (pyOr gr.name gr.tag_name)
        (pyStr (pyOr gr.description (some ""))) env i (hnoexn i) with ⟨v, hv⟩
    have hidx := create_release_idxs ot ow rn gr.tag_name (pyOr gr.name gr.tag_name)
      (pyStr (pyOr gr.description (some ""))) env i hres (hnoexn i)
    rcases hcr : create_github_release ot ow rn gr.tag_name (pyOr gr.name gr.tag_name)
        (pyStr (pyOr gr.description (some ""))) env i with ⟨rf, rt⟩
    have hrf : rf = .ok v := by rw [hcr] at hv; exact hv
    subst hrf
    rw [hcr] at hidx
    rcases hl : copyLoop ot ow rn env rest (i + 1) with ⟨res2, tr2⟩
    have hrest := ih (i + 1)
    rw [hl] at hrest
    simp only [hcr, hl]
    simp [releaseAttemptIdxs_append, hidx, hrest, List.range'_succ]

theorem get_gitlab_releases_snd (env : JobEnv) :
    (get_gitlab_releases env).snd = [.listReleasesAttempt] := by
  by_cases h : env.relListStatus = 200 <;> simp [get_gitlab_releases, h]

/-- C4: one release's orderly creation failure never stops the copy of
the remaining releases — the copy step issues exactly one creation
request per listed source release, in source order, whenever the owner is
resolvable and no creation call raises. -/
theorem copy_releases_all_attempted (ot : String) (ow : Option String) (rn : String)
    (env : JobEnv)
    (hres : (pyLower ot == "org") = true ∨ truthy ow = true ∨ env.authUser.isSome = true)
    (hnoexn : ∀ i, env.relCreateRes i ≠ .exn) :
    releaseAttemptIdxs (copy_gitlab_releases_to_github ot ow rn env).snd
      = List.range (get_gitlab_releases env).fst.length := by
  rw [copy_gitlab_releases_to_github]
  have hsnd := get_gitlab_releases_snd env
  rcases hg : get_gitlab_releases env with ⟨rels, tr0⟩
  rw [hg] at hsnd
  simp only at hsnd
  subst hsnd
  by_cases he : rels.isEmpty = true
  · rw [List.isEmpty_iff] at he
    subst he
    simp [releaseAttemptIdxs]
  · have hloop := copyLoop_idxs ot ow rn env hres hnoexn rels 0
    rcases hl : copyLoop ot ow rn env rels 0 with ⟨res, tr⟩
    rw [hl] at hloop
    simp only [he, if_neg, hl]
    simp [releaseAttemptIdxs_append, releaseAttemptIdxs, List.range_eq_range']
    exact hloop

/-- Witness for C4: three source releases with the second failing — all
three creation requests are still issued, in order. -/
theorem copy_releases_all_attempted_witness :
    releaseAttemptIdxs (copy_gitlab_releases_to_github "user" none "proj-copy"
      envRel3).snd = [0, 1, 2] := by
  have h := copy_releases_all_attempted "user" none "proj-copy" envRel3
    (Or.inr (Or.inr (by decide)))
    (fun i => by by_cases h1 : i = 1 <;> simp [envRel3, envAllOk, h1])
  rw [h]
  decide

/-- C6: `get_gitlab_releases` returns the platform's release list on
HTTP 200 and an empty sequence on any error status; the error case is
only logged, and in particular the release-copy step then completes
without raising, so absent releases never abort a migration. -/
theorem get_releases_error_yields_empty (env : JobEnv) (ot : String)
    (ow : Option String) (rn : String) :
    (env.relListStatus = 200 → (get_gitlab_releases env).fst = env.relListBody) ∧
    (env.relListStatus ≠ 200 →
      (get_gitlab_releases env).fst = [] ∧
      (copy_gitlab_releases_to_github ot ow rn env).fst = .ok ()) := by
  constructor
  · intro h
    simp [get_gitlab_releases, h]
  · intro h
    constructor
    · simp [get_gitlab_releases, h]
    · rw [copy_gitlab_releases_to_github]
      simp [get_gitlab_releases, h]

/-- Witness for C6 at a concrete erroring endpoint (HTTP 500). -/
theorem get_releases_error_yields_empty_witness :
    (get_gitlab_releases envListFail).fst = [] ∧
    (copy_gitlab_releases_to_github "user" none "proj-copy" envListFail).fst = .ok () :=
  (get_releases_error_yields_empty envListFail "user" none "proj-copy").2 (by decide)

/-- C7: bulk-input parsing — a blank/whitespace-only line or a stripped
line beginning with `#` contributes no entry; a line whose comma split
does not have exactly two fields contributes no entry; `" a , b "`
contributes exactly `("a", "b")` with both fields stripped; and the file
parse is the in-order concatenation of the per-line parses. -/
theorem bulk_line_parsing_spec :
    (∀ raw, pyStrip raw = "" → parse_bulk_line raw = none) ∧
    (∀ raw, startsWithHash (pyStrip raw) = true → parse_bulk_line raw = none) ∧
    (∀ raw, (pySplitComma (pyStrip raw)).length ≠ 2 → parse_bulk_line raw = none) ∧
    parse_bulk_line " a , b " = some ("a", "b") ∧
    parse_bulk_line "a,b,c" = none ∧
    (∀ lines, parse_bulk_file lines = lines.filterMap parse_bulk_line) := by
  refine ⟨?_, ?_, ?_, by decide, by decide, ?_⟩
  · intro raw h
    have hemp : ("" : String).isEmpty = true := rfl
    simp [parse_bulk_line, h, hemp]
  · intro raw h
    by_cases he : (pyStrip raw).isEmpty = true
    · simp [parse_bulk_line, he]
    · simp [parse_bulk_line, he, h]
  · intro raw h
    by_cases he : (pyStrip raw).isEmpty = true
    · simp [parse_bulk_line, he]
    · by_cases hh : startsWithHash (pyStrip raw) = true
      · simp [parse_bulk_line, he, hh]
      · have hlen : ((pySplitComma (pyStrip raw)).map pyStrip).length ≠ 2 := by
          rw [List.length_map]
          exact h
        simp only [parse_bulk_line, he, hh, if_neg, Bool.false_eq_true,
          not_false_eq_true, if_false]
        rcases hp : (pySplitComma (pyStrip raw)).map pyStrip with _ | ⟨a, t⟩
        · simp
        · rcases t with _ | ⟨b, t2⟩
          · simp
          · rcases t2 with _ | ⟨c, t3⟩
            · rw [hp] at hlen; simp at hlen
            · simp
  · intro lines
    induction lines with
    | nil => rfl
    | cons l rest ih =>
      rw [parse_bulk_file]
      cases hl : parse_bulk_line l <;> simp [List.filterMap_cons, hl, ih]

/-- Witness for C7 on the spec's four sample lines. -/
theorem bulk_line_parsing_spec_witness :
    parse_bulk_line "  " = none ∧ parse_bulk_line "# comment" = none ∧
    parse_bulk_line "a,b,c" = none ∧ parse_bulk_line " a , b " = some ("a", "b") :=
  ⟨bulk_line_parsing_spec.1 "  " (by decide),
   bulk_line_parsing_spec.2.1 "# comment" (by decide),
   bulk_line_parsing_spec.2.2.2.2.1,
   bulk_line_parsing_spec.2.2.2.1⟩

/-- C10: owner-kind dispatch is decided solely by case-insensitive
equality with `"org"`.  For any owner kind whose lowercase form is not
`"org"` (including `"organization"`): repository creation always uses the
authenticated-user endpoint; release creation and settings update fall
back to the identity lookup when no owner name is given (using its result
as the owner when it succeeds); and the team-access step never runs, even
when a team slug is supplied. -/
theorem owner_kind_dispatch :
    (∀ (n ot : String) (ow : Option String) (env : JobEnv), pyLower ot ≠ "org" →
        (create_github_repo n ot ow env).snd = [.createRepoAttempt .user]) ∧
    (∀ (ot : String) (ow : Option String) (rn : String) (tn rln : Option String)
        (b : String) (env : JobEnv) (i : Nat), pyLower ot ≠ "org" → truthy ow = false →
        (create_github_release ot ow rn tn rln b env i).snd
          = .whoamiAttempt ::
              (match env.authUser with
                | none => []
                | some u => [.createReleaseAttempt u i])) ∧
    (∀ (ot : String) (ow : Option String) (rn : String) (env : JobEnv),
        pyLower ot ≠ "org" → truthy ow = false →
        (update_github_repo_settings ot ow rn env).snd
          = .whoamiAttempt ::
              (match env.authUser with
                | none => []
                | some u => [.settingsAttempt u])) ∧
    (∀ (job : Job) (env : JobEnv) (o t : String), pyLower job.owner_type ≠ "org" →
        Ev.teamAccessAttempt o t ∉ (migrate_repository job env).snd) := by
  refine ⟨?_, ?_, ?_, ?_⟩
  · intro n ot ow env h
    have hb : (pyLower ot == "org") = false := beq_eq_false_iff_ne.mpr h
    unfold create_github_repo
    cases hc : env.createRes <;> simp [hb, hc]
  · intro ot ow rn tn rln b env i h h2
    have hb : (pyLower ot == "org") = false := beq_eq_false_iff_ne.mpr h
    unfold create_github_release get_authenticated_username
    cases ha : env.authUser with
    | none => simp [hb, h2, ha]
    | some u => cases hc : env.relCreateRes i <;> simp [hb, h2, ha, hc]
  · intro ot ow rn env h h2
    have hb : (pyLower ot == "org") = false := beq_eq_false_iff_ne.mpr h
    unfold update_github_repo_settings get_authenticated_username
    cases ha : env.authUser with
    | none => simp [hb, h2, ha]
    | some u => cases hc : env.settingsRes <;> simp [hb, h2, ha, hc]
  · intro job env o t h hmem
    rw [migrate_snd] at hmem
    rcases List.mem_append.mp hmem with hb | hclp
    · rcases migrate_body_mem job env _ _ hb with hx | hx | hx | hx
      · cases hx
      · simp [isCreateRepoEv] at hx
      · rcases hx.1 with ⟨u, hu⟩; cases hu
      · have hg := hx.2.2.2.2 rfl
        rw [Bool.and_eq_true] at hg
        exact h (beq_iff_eq.mp hg.2)
    · rw [cleanup_step_eq] at hclp
      simp at hclp

/-- Witness for C10 with owner kind `"organization"`: user endpoint for
creation, identity fallback for settings, and no team-access attempt
despite a supplied team slug. -/
theorem owner_kind_dispatch_witness :
    (create_github_repo "proj-copy" "organization" (some "acme") envAllOk).snd
        = [.createRepoAttempt .user] ∧
    (update_github_repo_settings "organization" none "proj-copy" envAllOk).snd
        = [.whoamiAttempt, .settingsAttempt "me"] ∧
    Ev.teamAccessAttempt "acme" "devs" ∉ (migrate_repository jobFakeOrgEx envAllOk).snd :=
  ⟨owner_kind_dispatch.1 "proj-copy" "organization" (some "acme") envAllOk (by decide),
   by rw [owner_kind_dispatch.2.2.1 "organization" none "proj-copy" envAllOk
     (by decide) rfl]; rfl,
   owner_kind_dispatch.2.2.2 jobFakeOrgEx envAllOk "acme" "devs" (by decide)⟩

/-! ### Batch lemmas -/

theorem dictInsert_fresh (k v : String) (acc : List (String × String))
    (h : ∀ p ∈ acc, p.fst ≠ k) :
    dictInsert k v acc = acc ++ [(k, v)] := by
  induction acc with
  | nil => rfl
  | cons p rest ih =>
    rcases p with ⟨k1, v1⟩
    rw [dictInsert]
    have hk : k1 ≠ k := h (k1, v1) (by simp)
    rw [if_neg hk, ih (fun q hq => h q (by simp [hq]))]
    simp

/-- With pairwise-distinct target names, the batch loop appends one entry
per job, in processing order, carrying that job's outcome string. -/
theorem bulkGo_eq_append (cfg : BulkCfg) :
    ∀ (jobs : List ((String × String) × JobEnv)) (acc : List (String × String)),
      (jobs.map (fun x => x.1.2)).Nodup →
      (∀ p ∈ acc, ∀ x ∈ jobs, p.fst ≠ x.1.2) →
      bulkGo cfg jobs acc = acc ++ jobs.map (fun x =>
        (x.1.2, statusOf (migrate_repository (mkJob cfg x.1.1 x.1.2) x.2).fst)) := by
  intro jobs
  induction jobs with
  | nil => intro acc _ _; simp [bulkGo]
  | cons j rest ih =>
    intro acc hnd hdisj
    rcases j with ⟨⟨url, name⟩, env⟩
    rw [bulkGo]
    have hfresh : ∀ p ∈ acc, p.fst ≠ name := fun p hp =>
      hdisj p hp ((url, name), env) (by simp)
    rw [dictInsert_fresh name _ acc hfresh]
    rw [List.map_cons, List.nodup_cons] at hnd
    rw [ih _ hnd.2 ?_]
    · simp
    · intro p hp x hx
      rcases List.mem_append.mp hp with hp2 | hp2
      · exact hdisj p hp2 x (List.mem_cons_of_mem _ hx)
      · simp at hp2
        subst hp2
        intro heq
        have hname : name = x.1.2 := heq
        refine hnd.1 ?_
        rw [hname]
        exact List.mem_map_of_mem (fun y => y.1.2) hx

/-- C3 counterexample: a batch of two jobs whose target names coincide
produces a result map with a single entry, not one entry per job — the
map is keyed by target name, so a duplicate name overwrites the earlier
entry. -/
theorem bulk_duplicate_names_counterexample :
    (bulk_migrate_repositories cfgEx
      [(("https://gitlab.com/g/a.git", "dup"), envCloneFail),
       (("https://gitlab.com/g/b.git", "dup"), envCloneFail)]).length = 1 := by
  decide

/-- C3 (amended): for a batch whose target names are pairwise distinct, a
failure in one job does not prevent the remaining jobs from being
processed, and the result map has exactly one entry per job — the job's
target name mapped to its outcome (`Failed` on an orderly failure) — in
processing order.  (With duplicate target names a later job's entry
overwrites the earlier one.) -/
theorem bulk_result_map_complete (cfg : BulkCfg)
    (jobs : List ((String × String) × JobEnv))
    (hnd : (jobs.map (fun x => x.1.2)).Nodup) :
    bulk_migrate_repositories cfg jobs
      = jobs.map (fun x =>
          (x.1.2, statusOf (migrate_repository (mkJob cfg x.1.1 x.1.2) x.2).fst)) := by
  rw [bulk_migrate_repositories, bulkGo_eq_append cfg jobs [] hnd (by simp)]
  simp

/-- Witness for C3 (amended): first job fails to clone, second succeeds;
both appear, in order. -/
theorem bulk_result_map_complete_witness :
    bulk_migrate_repositories cfgEx
        [(("https://gitlab.com/g/a.git", "ra"), envCloneFail),
         (("https://gitlab.com/g/b.git", "rb"), envAllOk)]
      = [("ra", "Failed"), ("rb", "Success")] := by
  rw [bulk_result_map_complete cfgEx _ (by decide)]
  decide

/-- C8: an exception escaping `migrate_repository` during one batch job
is caught at the batch boundary and recorded as the distinct outcome
`"Exception"` for that job's target name, and the batch still processes
every remaining job (the result has one entry per job). -/
theorem bulk_exception_recorded (cfg : BulkCfg)
    (jobs : List ((String × String) × JobEnv)) (k : Nat)
    (hnd : (jobs.map (fun x => x.1.2)).Nodup) (hk : k < jobs.length)
    (hexn : (migrate_repository
        (mkJob cfg (jobs.get ⟨k, hk⟩).1.1 (jobs.get ⟨k, hk⟩).1.2)
        (jobs.get ⟨k, hk⟩).2).fst = .error ()) :
    (bulk_migrate_repositories cfg jobs).length = jobs.length ∧
    (bulk_migrate_repositories cfg jobs)[k]?
      = some ((jobs.get ⟨k, hk⟩).1.2, "Exception") := by
  have hb : bulk_migrate_repositories cfg jobs
      = jobs.map (fun x =>
          (x.1.2, statusOf (migrate_repository (mkJob cfg x.1.1 x.1.2) x.2).fst)) := by
    rw [bulk_migrate_repositories, bulkGo_eq_append cfg jobs [] hnd (by simp)]
    simp
  constructor
  · rw [hb, List.length_map]
  · rw [hb, List.getElem?_map, List.getElem?_eq_getElem hk]
    have hget : jobs[k] = jobs.get ⟨k, hk⟩ := rfl
    simp only [Option.map_some', hget, hexn, statusOf]

/-- Witness for C8: the middle job of three raises; it is recorded as
`"Exception"` and all three jobs appear in the result. -/
theorem bulk_exception_recorded_witness :
    (bulk_migrate_repositories cfgEx
        [(("https://gitlab.com/g/a.git", "ra"), envAllOk),
         (("https://gitlab.com/g/b.git", "rb"), envCloneExn),
         (("https://gitlab.com/g/c.git", "rc"), envAllOk)]).length = 3 ∧
    (bulk_migrate_repositories cfgEx
        [(("https://gitlab.com/g/a.git", "ra"), envAllOk),
         (("https://gitlab.com/g/b.git", "rb"), envCloneExn),
         (("https://gitlab.com/g/c.git", "rc"), envAllOk)])[1]?
      = some ("rb", "Exception") :=
  bulk_exception_recorded cfgEx
    [(("https://gitlab.com/g/a.git", "ra"), envAllOk),
     (("https://gitlab.com/g/b.git", "rb"), envCloneExn),
     (("https://gitlab.com/g/c.git", "rc"), envAllOk)] 1
    (by decide) (by decide) (by rfl)

end Migrate
